import Mathlib

/-!
Shallow embedding of the LessBoardGames background synchronization and
caching engine (src/lib/server/expansion-cache.ts, dimension-cache.ts)
and the interview queue builder (src/lib/state.svelte.ts), with theorems
checking the natural-language specification against the code.

Conventions of the embedding:
* JS numbers that hold identifiers or counters are `Nat`; timestamps are
  `Int` (milliseconds since epoch, `new Date(s).getTime()`); fractional
  measurements and ratings are `ℚ` (the rounding structure, not binary
  float noise, is what the claims are about).
* A JS object used as a map is an association list `List (Nat × V)`;
  property assignment `obj[k] = v` is `setKey`, `k in obj` is `memberKey`,
  `obj[k]` is `lookupKey`.
* The fire-and-forget async run is modelled run-to-completion: the only
  suspension points are network calls and delays, and every claim below is
  about the state after the run finishes.  The network is a parameter
  `client : Nat → List Nat → Option Batch` giving the result of the n-th
  call of the run (`none` models the 401/null result).
-/

namespace LessBoardGames

/-- Collection item, from `src/lib/types.ts` (`Game`).  Only the fields the
verified components read are carried.  `dateAdded` and `lastPlayed` are
timestamps (`none` models a null/empty date), `userRating` is `none` when
unrated. -/
structure Game where
  bggId : Nat
  name : String
  dateAdded : Option Int
  playCount : Nat
  lastPlayed : Option Int
  userRating : Option ℚ
deriving DecidableEq, Repr

/-- Cross-reference record, from `src/lib/types.ts` (`ExpansionLink`). -/
structure ExpansionLink where
  bggId : Nat
  name : String
deriving DecidableEq, Repr

/-- Physical dimensions record, from `src/lib/types.ts` (`BoxDimensions`). -/
structure BoxDimensions where
  width : ℚ
  length : ℚ
  depth : ℚ
  volume : ℚ
deriving DecidableEq, Repr

/-! ### Association-list model of JS objects used as maps -/

/-- Lookup `obj[k]` in a JS object modelled as an association list. -/
def lookupKey {V : Type} : List (Nat × V) → Nat → Option V
  | [], _ => none
  | (k, v) :: rest, key => if k = key then some v else lookupKey rest key

/-- Assignment `obj[k] = v`: overwrite the key if present, else append. -/
def setKey {V : Type} : List (Nat × V) → Nat → V → List (Nat × V)
  | [], key, v => [(key, v)]
  | (k, w) :: rest, key, v =>
      if k = key then (k, v) :: rest else (k, w) :: setKey rest key v

/-- Membership test `k in obj`. -/
def memberKey {V : Type} (m : List (Nat × V)) (k : Nat) : Bool :=
  (lookupKey m k).isSome

/-! ### String helpers mirroring the JS string operations -/

/-- JS `hay.indexOf(pat)` (first index at which `pat` occurs), as an
`Option Nat` instead of the −1 sentinel. -/
def idxOfSub (pat : List Char) : List Char → Option Nat
  | [] => if pat.isPrefixOf ([] : List Char) then some 0 else none
  | c :: t =>
      if pat.isPrefixOf (c :: t) then some 0
      else (idxOfSub pat t).map (· + 1)

/-- JS `String.prototype.trim` on a character list. -/
def trimChars (l : List Char) : List Char :=
  ((l.dropWhile Char.isWhitespace).reverse.dropWhile Char.isWhitespace).reverse

/-- JS `String.prototype.toLowerCase` on a character list. -/
def lowerChars (l : List Char) : List Char :=
  l.map Char.toLower

/-! ### Heuristic Matcher (`analyzeByNamePrefix`, expansion-cache.ts 73–147) -/

/-- Candidate base-name stem of a game name: the substring before the first
separator among `:`, ` – ` (en dash), ` - ` occurring at a positive index,
trimmed and lower-cased; discarded when shorter than 3 characters.
Mirrors expansion-cache.ts lines 84–95. -/
def candStem (name : List Char) : Option (List Char) :=
  let seps := ([idxOfSub [':'] name,
                idxOfSub [' ', '–', ' '] name,
                idxOfSub [' ', '-', ' '] name].filterMap id).filter (0 < ·)
  match seps with
  | [] => none
  | i :: is =>
      let splitAt := is.foldl min i
      let stem := lowerChars (trimChars (name.take splitAt))
      if stem.length < 3 then none else some stem

/-- The `nameToGame` map of the heuristic: later insertions overwrite, so a
lookup returns the last game whose lower-cased name equals the key. -/
def nameLookup (games : List Game) (key : List Char) : Option Game :=
  games.reverse.find? (fun g => lowerChars g.name.toList == key)

/-- Append a game to its stem group, preserving JS `Map` insertion order. -/
def addToGroup (groups : List (List Char × List Game)) (key : List Char)
    (g : Game) : List (List Char × List Game) :=
  match groups with
  | [] => [(key, [g])]
  | (k, gs) :: rest =>
      if k == key then (k, gs ++ [g]) :: rest
      else (k, gs) :: addToGroup rest key g

/-- The `prefixGroups` map: games grouped by shared candidate stem, in
insertion order (expansion-cache.ts lines 79–101). -/
def buildGroups (games : List Game) : List (List Char × List Game) :=
  games.foldl
    (fun acc g =>
      match candStem g.name.toList with
      | none => acc
      | some stem => addToGroup acc stem g)
    []

/-- Fallback base-game pick for a multi-member group with no exact bare-stem
match: JS stable-sorts the group by name length ascending and takes the
first element (expansion-cache.ts lines 126–128). -/
def shortestNamed (g0 : Game) (gs : List Game) : Game :=
  (((g0 :: gs).mergeSort (fun a b => a.name.length ≤ b.name.length)).headD g0)

/-- Heuristic Matcher, `analyzeByNamePrefix` (expansion-cache.ts 73–147):
derives probable expansion links from names alone.  Returns the JS result
object as an association list; note that only flagged expansions receive an
entry. -/
def analyzeByNamePrefix (games : List Game) : List (Nat × List ExpansionLink) :=
  (buildGroups games).foldl
    (fun result entry =>
      match entry with
      | (_, []) => result
      | (stem, [g0]) =>
          match nameLookup games stem with
          | some bareBase =>
              if bareBase.bggId ≠ g0.bggId then
                setKey result g0.bggId [⟨bareBase.bggId, bareBase.name⟩]
              else result
          | none => result
      | (stem, g0 :: g1 :: gs) =>
          let baseGame :=
            match nameLookup games stem with
            | some bareBase => bareBase
            | none => shortestNamed g0 (g1 :: gs)
          (g0 :: g1 :: gs).foldl
            (fun res g =>
              if g.bggId = baseGame.bggId then res
              else setKey res g.bggId [⟨baseGame.bggId, baseGame.name⟩])
            result)
    []

/-! Concrete input of the fallback-correctness test in the specification. -/

/-- Item "Carcassonne" with identifier 1. -/
def carcassonne : Game := ⟨1, "Carcassonne", none, 0, none, none⟩

/-- Item "Carcassonne: Hunters and Gatherers" with identifier 2. -/
def carcHunters : Game := ⟨2, "Carcassonne: Hunters and Gatherers", none, 0, none, none⟩

/-- Item "Catan" with identifier 3. -/
def catan : Game := ⟨3, "Catan", none, 0, none, none⟩

/-- The three-item list of the fallback-correctness example. -/
def demoGames : List Game := [carcassonne, carcHunters, catan]

/-! ### Catalog Client retry ladder (`fetchBatchExpansions` expansion-cache.ts
178–209, `fetchBatchDimensions` dimension-cache.ts 111–142; both share the
same control flow) -/

/-- The fixed backoff ladder, `const backoff = [2000, 4000, 8000]`. -/
def backoffLadder : List Nat := [2000, 4000, 8000]

/-- One batched read with the 202-retry ladder.  `s n` is the HTTP status of
the n-th attempt and `p n` the parsed payload when that attempt returns 200.
Result: the parsed batch (`none` models the null returned on 401) paired with
the list of delays slept, in order.  Mirrors the `for (attempt = 0;
attempt <= backoff.length; attempt++)` loop of both fetch functions. -/
def fetchWithRetry {α : Type} (s : Nat → Nat) (p : Nat → α) (emptyResult : α) :
    Nat → List Nat → Option α × List Nat :=
  fun attempt delays =>
    if s attempt = 200 then (some (p attempt), delays)
    else if s attempt = 401 then (none, delays)
    else if h : s attempt = 202 ∧ attempt < 3 then
      fetchWithRetry s p emptyResult (attempt + 1)
        (delays ++ [backoffLadder.getD attempt 0])
    else (some emptyResult, delays)
termination_by attempt => 4 - attempt
decreasing_by omega

/-- Batch type of the expansion dataset. -/
abbrev ExpBatch := List (Nat × List ExpansionLink)

/-- Batch type of the dimension dataset. -/
abbrev DimBatch := List (Nat × BoxDimensions)

/-- `fetchBatchExpansions` for one batch, as a run of the retry ladder. -/
def fetchBatchExpansions (s : Nat → Nat) (p : Nat → ExpBatch) :
    Option ExpBatch × List Nat :=
  fetchWithRetry s p ([] : ExpBatch) 0 []

/-- `fetchBatchDimensions` for one batch, as a run of the retry ladder. -/
def fetchBatchDimensions (s : Nat → Nat) (p : Nat → DimBatch) :
    Option DimBatch × List Nat :=
  fetchWithRetry s p ([] : DimBatch) 0 []

/-! ### Flush as a durable-storage trace (`saveCache`, expansion-cache.ts
35–38 and dimension-cache.ts 34–37) -/

/-- One durable-storage operation issued by the server code. -/
inductive FsOp where
  | mkdirIfMissing (path : String)
  | writeFile (path : String) (content : String)
  | rename (src : String) (dst : String)
deriving DecidableEq, Repr

/-- Durable path of the expansion cache document. -/
def expCachePath : String := "data/expansion-links.json"

/-- Durable path of the dimension cache document. -/
def dimCachePath : String := "data/dimensions.json"

/-- Operations performed by `saveCache` of expansion-cache.ts (lines 35–38):
`ensureDir()` then a single direct `writeFileSync` of the serialized store to
the cache path. -/
def saveCacheTraceExp (content : String) : List FsOp :=
  [FsOp.mkdirIfMissing "data", FsOp.writeFile expCachePath content]

/-- Operations performed by `saveCache` of dimension-cache.ts (lines 34–37),
identical in shape. -/
def saveCacheTraceDim (content : String) : List FsOp :=
  [FsOp.mkdirIfMissing "data", FsOp.writeFile dimCachePath content]

/-- Modelled from the spec: a flush trace follows the write-temporary-then-
rename pattern for `target` when it writes the content to some other path and
then renames that path onto the target, never writing the target directly. -/
def WriteRenamePattern (t : List FsOp) (target : String) : Prop :=
  (∃ tmp content, tmp ≠ target ∧
      (FsOp.writeFile tmp content) ∈ t ∧ (FsOp.rename tmp target) ∈ t) ∧
  ∀ content, (FsOp.writeFile target content) ∉ t

/-! ### Sync Coordinator state, expansion dataset (expansion-cache.ts) -/

/-- Fetch method recorded by the expansion coordinator. -/
inductive Method where
  | api
  | nameMatch
  | none
deriving DecidableEq, Repr

/-- Module-level state of expansion-cache.ts: the in-memory cache, the
single-flight flag, the progress counters, the method marker, and the parsed
contents of the durable document (`none` = file missing). -/
structure ExpState where
  cache : ExpBatch
  inProgress : Bool
  fetched : Nat
  total : Nat
  usedMethod : Method
  disk : Option ExpBatch
deriving DecidableEq, Repr

/-- `loadCache` (expansion-cache.ts 23–33): replace the in-memory mapping by
the parsed durable document when the file exists; keep it otherwise. -/
def ExpState.loadCache (st : ExpState) : ExpState :=
  match st.disk with
  | some d => { st with cache := d }
  | none => st

/-- `saveCache` at the state level: the durable document now holds the full
in-memory store. -/
def ExpState.saveCache (st : ExpState) : ExpState :=
  { st with disk := some st.cache }

/-- Status value inside the snapshot object returned by `getFetchStatus`. -/
inductive StatusVal where
  | bool (b : Bool)
  | nat (n : Nat)
  | method (m : Method)
deriving DecidableEq, Repr

/-- Field lookup in a status snapshot object. -/
def lookupField : List (String × StatusVal) → String → Option StatusVal
  | [], _ => Option.none
  | (k, v) :: rest, key => if k = key then some v else lookupField rest key

/-- `getFetchStatus` of expansion-cache.ts (lines 47–55): the snapshot object
with its five fields, recomputed from the module state. -/
def ExpState.getFetchStatus (st : ExpState) : List (String × StatusVal) :=
  [("inProgress", StatusVal.bool st.inProgress),
   ("fetched", StatusVal.nat st.fetched),
   ("total", StatusVal.nat st.total),
   ("cached", StatusVal.nat st.cache.length),
   ("method", StatusVal.method st.usedMethod)]

/-- Merge one parsed batch into the cache: `expansionCache[parseInt(id)] =
links` for each entry. -/
def mergeBatch {V : Type} (cache : List (Nat × V)) (b : List (Nat × V)) :
    List (Nat × V) :=
  b.foldl (fun c kv => setKey c kv.1 kv.2) cache

/-- The post-trial batch loop of the expansion run (expansion-cache.ts
267–291): walk the remainder in slices of 15, merging, updating `fetchedCount
= BATCH_SIZE + min(i + BATCH_SIZE, remaining.length)` and flushing after
every batch; a null result stops the loop early. -/
def runRemainingExp (client : Nat → List Nat → Option ExpBatch) (k : Nat)
    (done remLen : Nat) (pending : List Nat) (st : ExpState) : ExpState :=
  if hp : pending = [] then st
  else
    let batch := pending.take 15
    match client k batch with
    | Option.none => st
    | some links =>
        let st' := ExpState.saveCache
          { st with cache := mergeBatch st.cache links,
                    fetched := 15 + min (done + 15) remLen }
        runRemainingExp client (k + 1) (done + 15) remLen (pending.drop 15) st'
termination_by pending.length
decreasing_by
  have hlen : 0 < pending.length := List.length_pos.mpr hp
  simp [List.length_drop]
  omega

/-- `startBackgroundFetch` of expansion-cache.ts (lines 215–301), with the
detached async body run to completion.  `client n b` is the result of the
n-th `fetchBatchExpansions` call of this run on batch `b`. -/
def startBackgroundFetch (client : Nat → List Nat → Option ExpBatch)
    (bggIds : List Nat) (games : List Game) (st0 : ExpState) : ExpState :=
  if st0.inProgress then st0
  else
    let st1 := st0.loadCache
    let needed := bggIds.filter (fun id => !(memberKey st1.cache id))
    if needed = [] then st1
    else
      let st2 := { st1 with inProgress := true, fetched := 0,
                            total := needed.length }
      let stBody :=
        match client 0 (needed.take 15) with
        | Option.none =>
            let stF :=
              if games ≠ [] then
                let nameMatches := analyzeByNamePrefix games
                { st2 with
                    cache := bggIds.foldl
                      (fun c id => setKey c id ((lookupKey nameMatches id).getD []))
                      st2.cache,
                    usedMethod := Method.nameMatch }
              else st2
            ExpState.saveCache { stF with fetched := stF.total }
        | some testResult =>
            let st3 := { st2 with usedMethod := Method.api }
            let st4 := ExpState.saveCache
              { st3 with cache := mergeBatch st3.cache testResult,
                         fetched := (needed.take 15).length }
            runRemainingExp client 1 0 (needed.drop 15).length
              (needed.drop 15) st4
      ExpState.saveCache { stBody with inProgress := false }

/-! ### Sync Coordinator state, dimension dataset (dimension-cache.ts) -/

/-- Module-level state of dimension-cache.ts; no method marker exists in that
module. -/
structure DimState where
  cache : DimBatch
  inProgress : Bool
  fetched : Nat
  total : Nat
  disk : Option DimBatch
deriving DecidableEq, Repr

/-- `loadCache` (dimension-cache.ts 22–32). -/
def DimState.loadCache (st : DimState) : DimState :=
  match st.disk with
  | some d => { st with cache := d }
  | none => st

/-- `saveCache` (dimension-cache.ts 34–37) at the state level. -/
def DimState.saveCache (st : DimState) : DimState :=
  { st with disk := some st.cache }

/-- `getFetchStatus` of dimension-cache.ts (lines 46–53): the snapshot object
with its four fields; the module has no method field to report. -/
def DimState.getFetchStatus (st : DimState) : List (String × StatusVal) :=
  [("inProgress", StatusVal.bool st.inProgress),
   ("fetched", StatusVal.nat st.fetched),
   ("total", StatusVal.nat st.total),
   ("cached", StatusVal.nat st.cache.length)]

/-- The batch loop of the dimension run (dimension-cache.ts 169–194):
slices of 15, merge, `fetchedCount = min(i + BATCH_SIZE, needed.length)`,
flush after every batch; a null result stops the loop. -/
def runBatchesDim (client : Nat → List Nat → Option DimBatch) (k : Nat)
    (done remLen : Nat) (pending : List Nat) (st : DimState) : DimState :=
  if hp : pending = [] then st
  else
    let batch := pending.take 15
    match client k batch with
    | Option.none => st
    | some dims =>
        let st' := DimState.saveCache
          { st with cache := mergeBatch st.cache dims,
                    fetched := min (done + 15) remLen }
        runBatchesDim client (k + 1) (done + 15) remLen (pending.drop 15) st'
termination_by pending.length
decreasing_by
  have hlen : 0 < pending.length := List.length_pos.mpr hp
  simp [List.length_drop]
  omega

/-- `startBackgroundFetch` of dimension-cache.ts (lines 148–203), with the
detached async body run to completion. -/
def startBackgroundFetchDim (client : Nat → List Nat → Option DimBatch)
    (bggIds : List Nat) (st0 : DimState) : DimState :=
  if st0.inProgress then st0
  else
    let st1 := st0.loadCache
    let needed := bggIds.filter (fun id => !(memberKey st1.cache id))
    if needed = [] then st1
    else
      let st2 := { st1 with inProgress := true, fetched := 0,
                            total := needed.length }
      let stBody := runBatchesDim client 0 0 needed.length needed st2
      DimState.saveCache { stBody with inProgress := false }

/-! ### Dimension Response Parser (`parseDimensionsXml`, dimension-cache.ts
67–105).  The regular-expression extraction of the XML payload is abstracted
to the structure it yields: per item, the list of its version variants,
each with the three measurements as parsed by `parseFloat(... ?? '0')`
(a missing measurement parses to 0). -/

/-- One version variant of an item as extracted from the payload. -/
structure VersionDims where
  width : ℚ
  length : ℚ
  depth : ℚ
deriving DecidableEq, Repr

/-- JS `Math.round(q * 100) / 100` (round to nearest, ties away from minus
infinity), the 2-decimal rounding used at dimension-cache.ts 94–97. -/
def round2 (q : ℚ) : ℚ := (round (q * 100) : ℚ) / 100

/-- The inner version loop (dimension-cache.ts 86–101): the first version
whose three measurements are all positive wins, its fields are stored
rounded, and volume is computed from the unrounded measurements before
rounding. -/
def pickDims : List VersionDims → Option BoxDimensions
  | [] => Option.none
  | v :: rest =>
      if 0 < v.width ∧ 0 < v.length ∧ 0 < v.depth then
        some ⟨round2 v.width, round2 v.length, round2 v.depth,
              round2 (v.width * v.length * v.depth)⟩
      else pickDims rest

/-- `parseDimensionsXml` over the abstracted payload: one optional record per
item. -/
def parseDimensionsXml (items : List (Nat × List VersionDims)) : DimBatch :=
  items.filterMap (fun iv => (pickDims iv.2).map (fun d => (iv.1, d)))

/-- Modelled from the spec: the first version variant whose three
measurements are all present and positive. -/
def firstValidVersion : List VersionDims → Option VersionDims
  | [] => Option.none
  | v :: rest =>
      if 0 < v.width ∧ 0 < v.length ∧ 0 < v.depth then some v
      else firstValidVersion rest

/-! ### Durable document serialization (`JSON.stringify` at save,
`JSON.parse` at load, with identifiers stringified as object keys) -/

/-- JSON document model: numbers restricted to the integers the expansion
document contains. -/
inductive Json where
  | num (n : Int)
  | str (s : String)
  | arr (xs : List Json)
  | obj (fields : List (String × Json))

/-- Decimal digit to its character. -/
def digitChar : Nat → Char
  | 0 => '0'
  | 1 => '1'
  | 2 => '2'
  | 3 => '3'
  | 4 => '4'
  | 5 => '5'
  | 6 => '6'
  | 7 => '7'
  | 8 => '8'
  | _ => '9'

/-- Character back to its decimal digit value. -/
def charDigit (c : Char) : Nat := c.toNat - 48

/-- Stringified identifier: the decimal representation of a natural key, as
produced for JS object keys. -/
def natToStr (n : Nat) : String :=
  if n = 0 then "0" else String.mk (((Nat.digits 10 n).map digitChar).reverse)

/-- Parse a stringified identifier back to the natural key. -/
def strToNat (s : String) : Nat :=
  Nat.ofDigits 10 ((s.data.map charDigit).reverse)

/-- Serialize one `ExpansionLink` as its JSON object. -/
def encodeLink (l : ExpansionLink) : Json :=
  Json.obj [("bggId", Json.num (l.bggId : Int)), ("name", Json.str l.name)]

/-- Parse one link object. -/
def decodeLink : Json → Option ExpansionLink
  | Json.obj [("bggId", Json.num n), ("name", Json.str s)] =>
      if 0 ≤ n then some ⟨n.toNat, s⟩ else Option.none
  | _ => Option.none

/-- Parse a link array. -/
def decodeLinks : List Json → Option (List ExpansionLink)
  | [] => some []
  | j :: rest =>
      match decodeLink j, decodeLinks rest with
      | some l, some ls => some (l :: ls)
      | _, _ => Option.none

/-- `JSON.stringify(expansionCache)`: the flat document keyed by stringified
identifier. -/
def encodeCache (c : ExpBatch) : Json :=
  Json.obj (c.map (fun kv => (natToStr kv.1, Json.arr (kv.2.map encodeLink))))

/-- Parse the field list of the document object. -/
def decodeEntries : List (String × Json) → Option ExpBatch
  | [] => some []
  | (s, Json.arr xs) :: rest =>
      match decodeLinks xs, decodeEntries rest with
      | some ls, some r => some ((strToNat s, ls) :: r)
      | _, _ => Option.none
  | _ => Option.none

/-- `JSON.parse` of the durable document back into the in-memory mapping. -/
def decodeCache : Json → Option ExpBatch
  | Json.obj fields => decodeEntries fields
  | _ => Option.none

/-! ### Queue Builder (`buildDefaultQueue`, state.svelte.ts 86–133).  The two
calendar cutoffs computed from the current date are parameters. -/

/-- `compareDates` key (state.svelte.ts 135–139): missing date is epoch 0. -/
def dateKey (d : Option Int) : Int := d.getD 0

/-- Rating sort key: `a.userRating ?? 0`. -/
def ratingKey (r : Option ℚ) : ℚ := r.getD 0

/-- Grace-period test (state.svelte.ts 93–96): an item with a date added on
or after the one-year cutoff; a missing date keeps the item in the queue. -/
def isRecent (oneYearAgo : Int) (g : Game) : Bool :=
  match g.dateAdded with
  | Option.none => false
  | some t => oneYearAgo ≤ t

/-- `isExpansionInCollection` (state.svelte.ts 81–84): the item has a cached
link list with at least one base present in the owned set. -/
def isExpansionInCollection (expansionOf : ExpBatch) (collectionIds : List Nat)
    (g : Game) : Bool :=
  match lookupKey expansionOf g.bggId with
  | Option.none => false
  | some links => links.any (fun b => collectionIds.contains b.bggId)

/-- Tier-2 filter body (state.svelte.ts 116–121). -/
def staleCheck (threeYearsAgo : Int) (neverPlayedIds : List Nat) (g : Game) :
    Bool :=
  if neverPlayedIds.contains g.bggId then false
  else if g.playCount = 0 then false
  else
    match g.lastPlayed with
    | Option.none => true
    | some t => t < threeYearsAgo

/-- `buildDefaultQueue` (state.svelte.ts 86–133).  JS `Array.prototype.sort`
is stable, so each `.sort(cmp)` is a stable merge sort on the comparator
key; `localeCompare` is modelled by the order on strings. -/
def buildDefaultQueue (oneYearAgo threeYearsAgo : Int) (expansionOf : ExpBatch)
    (collectionIds : List Nat) (undecided : List Game) : List Game :=
  let recentIds := (undecided.filter (isRecent oneYearAgo)).map Game.bggId
  let eligible := undecided.filter (fun g => !(recentIds.contains g.bggId))
  let expansions :=
    (eligible.filter (isExpansionInCollection expansionOf collectionIds)).mergeSort
      (fun a b => a.name ≤ b.name)
  let expansionIds := expansions.map Game.bggId
  let standalone := eligible.filter (fun g => !(expansionIds.contains g.bggId))
  let neverPlayed :=
    (standalone.filter (fun g => g.playCount = 0)).mergeSort
      (fun a b => dateKey a.dateAdded ≤ dateKey b.dateAdded)
  let neverPlayedIds := neverPlayed.map Game.bggId
  let stale :=
    (standalone.filter (staleCheck threeYearsAgo neverPlayedIds)).mergeSort
      (fun a b => ratingKey a.userRating ≤ ratingKey b.userRating)
  let staleIds := stale.map Game.bggId
  let rest :=
    (standalone.filter (fun g =>
        !(neverPlayedIds.contains g.bggId) && !(staleIds.contains g.bggId))).mergeSort
      (fun a b => dateKey a.lastPlayed ≤ dateKey b.lastPlayed)
  neverPlayed ++ stale ++ rest ++ expansions

/-! ### Spec-side tier predicates for the Queue Builder claim -/

/-- Spec predicate: survives the one-year grace period. -/
def eligibleSpec (oneYearAgo : Int) (g : Game) : Bool :=
  !(isRecent oneYearAgo g)

/-- Spec predicate: deferred group, an eligible expansion of an owned base. -/
def expSpec (oneYearAgo : Int) (expansionOf : ExpBatch)
    (collectionIds : List Nat) (g : Game) : Bool :=
  eligibleSpec oneYearAgo g && isExpansionInCollection expansionOf collectionIds g

/-- Spec predicate, Tier 1: eligible standalone item never played. -/
def tier1Spec (oneYearAgo : Int) (expansionOf : ExpBatch)
    (collectionIds : List Nat) (g : Game) : Bool :=
  eligibleSpec oneYearAgo g &&
    !(isExpansionInCollection expansionOf collectionIds g) && (g.playCount = 0)

/-- Spec predicate, Tier 2: eligible standalone item played, but with no
last-played date or one before the three-year cutoff. -/
def tier2Spec (oneYearAgo threeYearsAgo : Int) (expansionOf : ExpBatch)
    (collectionIds : List Nat) (g : Game) : Bool :=
  eligibleSpec oneYearAgo g &&
    !(isExpansionInCollection expansionOf collectionIds g) &&
    !(g.playCount = 0) &&
    (match g.lastPlayed with
     | Option.none => true
     | some t => t < threeYearsAgo)

/-- Spec predicate, Tier 3: the remaining eligible standalone items. -/
def tier3Spec (oneYearAgo threeYearsAgo : Int) (expansionOf : ExpBatch)
    (collectionIds : List Nat) (g : Game) : Bool :=
  eligibleSpec oneYearAgo g &&
    !(isExpansionInCollection expansionOf collectionIds g) &&
    !(g.playCount = 0) &&
    !(match g.lastPlayed with
      | Option.none => true
      | some t => t < threeYearsAgo)

/-! ### Concrete fixtures used by witnesses -/

/-- Fresh expansion module state: empty cache, idle, no durable file. -/
def expFresh : ExpState := ⟨[], false, 0, 0, Method.none, Option.none⟩

/-- Fresh dimension module state. -/
def dimFresh : DimState := ⟨[], false, 0, 0, Option.none⟩

/-- Queue example: a never-played item acquired long ago. -/
def gNever : Game := ⟨1, "Never Played", some (-160000), 0, Option.none, Option.none⟩

/-- Queue example: an item last played before the three-year cutoff, rated 2. -/
def gStale : Game := ⟨2, "Stale", some (-200000), 2, some (-128000), some 2⟩

/-- Queue example: an item played recently, rated 5. -/
def gFresh : Game := ⟨3, "Recently Played", some (-300000), 9, some (-1000), some 5⟩

/-- Queue example: an item acquired within the one-year grace period. -/
def gNew : Game := ⟨4, "Brand New", some (-10000), 0, Option.none, Option.none⟩

/-- Queue example input in presentation order. -/
def demoQueueInput : List Game := [gFresh, gStale, gNever, gNew]

/-! ## Helper lemmas on the association-list operations -/

theorem lookupKey_setKey_self {V : Type} (m : List (Nat × V)) (k : Nat) (v : V) :
    lookupKey (setKey m k v) k = some v := by
  induction m with
  | nil => simp [setKey, lookupKey]
  | cons hd tl ih =>
      by_cases h : hd.1 = k
      · simp [setKey, h, lookupKey]
      · simp [setKey, h, lookupKey, ih]

theorem lookupKey_setKey_ne {V : Type} (m : List (Nat × V)) (k k' : Nat) (v : V)
    (h : k' ≠ k) : lookupKey (setKey m k v) k' = lookupKey m k' := by
  have h' : ¬ k = k' := fun hh => h hh.symm
  induction m with
  | nil => simp [setKey, lookupKey, h']
  | cons hd tl ih =>
      obtain ⟨a, w⟩ := hd
      by_cases hk : a = k
      · subst hk
        simp [setKey, lookupKey, h']
      · simp [setKey, hk, lookupKey, ih]

theorem lookupKey_foldl_not_mem {V : Type} (f : Nat → V) (l : List Nat)
    (c : List (Nat × V)) (id : Nat) (h : id ∉ l) :
    lookupKey (l.foldl (fun acc i => setKey acc i (f i)) c) id = lookupKey c id := by
  induction l generalizing c with
  | nil => rfl
  | cons a t ih =>
      have ha : id ≠ a := fun hh => h (hh ▸ List.mem_cons_self a t)
      have ht : id ∉ t := fun hh => h (List.mem_cons_of_mem a hh)
      simp only [List.foldl_cons]
      rw [ih _ ht, lookupKey_setKey_ne _ _ _ _ ha]

theorem lookupKey_foldl_mem {V : Type} (f : Nat → V) (l : List Nat)
    (c : List (Nat × V)) (id : Nat) (h : id ∈ l) :
    lookupKey (l.foldl (fun acc i => setKey acc i (f i)) c) id = some (f id) := by
  induction l generalizing c with
  | nil => cases h
  | cons a t ih =>
      simp only [List.foldl_cons]
      by_cases ht : id ∈ t
      · exact ih _ ht
      · have ha : id = a := by
          rcases List.mem_cons.mp h with h1 | h2
          · exact h1
          · exact absurd h2 ht
        subst ha
        rw [lookupKey_foldl_not_mem _ _ _ _ ht, lookupKey_setKey_self]

theorem loadCache_usedMethod (st : ExpState) :
    st.loadCache.usedMethod = st.usedMethod := by
  cases h : st.disk <;> simp [ExpState.loadCache, h]

/-! ## C2 — Heuristic Matcher on the three-item example -/

/-- C2 counterexample: on the concrete input
["Carcassonne", "Carcassonne: Hunters and Gatherers", "Catan"] the function
`analyzeByNamePrefix` has no entry at all for "Carcassonne" (identifier 1),
so it does not return the claimed mapping in which every input item appears
as a key with non-expansions bound to an empty list. -/
theorem analyzeByNamePrefix_demo_omits_nonexpansions :
    lookupKey (analyzeByNamePrefix demoGames) 1 = Option.none ∧
    ¬ lookupKey (analyzeByNamePrefix demoGames) 1 = some [] := by
  constructor
  · decide
  · decide

/-- C2 amended: `analyzeByNamePrefix` on the example returns exactly the
single-entry mapping flagging "Carcassonne: Hunters and Gatherers"
(identifier 2) as an expansion of "Carcassonne" (identifier 1), with the
non-expansions omitted; the coordinator merge step (`nameMatches[id] ?? []`
over every requested identifier) is what produces the claimed shape with
empty lists for identifiers 1 and 3. -/
theorem analyzeByNamePrefix_demo :
    lookupKey (analyzeByNamePrefix demoGames) 2 = some [⟨1, "Carcassonne"⟩] ∧
    lookupKey (analyzeByNamePrefix demoGames) 1 = Option.none ∧
    lookupKey (analyzeByNamePrefix demoGames) 3 = Option.none ∧
    (let merged := [1, 2, 3].foldl
        (fun c id => setKey c id ((lookupKey (analyzeByNamePrefix demoGames) id).getD []))
        ([] : ExpBatch)
     lookupKey merged 1 = some [] ∧
     lookupKey merged 2 = some [⟨1, "Carcassonne"⟩] ∧
     lookupKey merged 3 = some []) := by
  refine ⟨by decide, by decide, by decide, by decide, by decide, by decide⟩

/-! ## C5 — flush is a direct write, not write-temp-then-rename -/

/-- C5 counterexample: the flush trace of the expansion cache store does not
follow the write-temporary-then-rename pattern; its trace contains no rename
operation at all (the dimension store trace is identical in shape). -/
theorem saveCache_not_write_rename :
    ¬ WriteRenamePattern (saveCacheTraceExp "{}") expCachePath := by
  rintro ⟨⟨tmp, content, hne, hw, hr⟩, hnw⟩
  simp [saveCacheTraceExp] at hr

/-- C5 amended: every flush of either cache store serializes the full store
with one direct `writeFileSync` to the final cache path, preceded only by
the data-directory check; no temporary file and no rename are involved, so
the durability of a concurrent read is whatever a single direct write gives. -/
theorem saveCache_trace_direct_write (content : String) :
    saveCacheTraceExp content =
      [FsOp.mkdirIfMissing "data", FsOp.writeFile expCachePath content] ∧
    saveCacheTraceDim content =
      [FsOp.mkdirIfMissing "data", FsOp.writeFile dimCachePath content] ∧
    (∀ src dst, FsOp.rename src dst ∉ saveCacheTraceExp content) ∧
    (∀ src dst, FsOp.rename src dst ∉ saveCacheTraceDim content) := by
  refine ⟨rfl, rfl, ?_, ?_⟩ <;> intro src dst <;> simp [saveCacheTraceExp, saveCacheTraceDim]

/-! ## C8 — a start request during a run is a silent no-op -/

/-- C8: for both derived datasets, calling `startBackgroundFetch` while a run
is in progress returns the module state unchanged: no second run starts, and
`total`, `fetched` and the cache keep their values. -/
theorem startBackgroundFetch_noop_when_running
    (clientE : Nat → List Nat → Option ExpBatch)
    (clientD : Nat → List Nat → Option DimBatch)
    (bggIds : List Nat) (games : List Game) (stE : ExpState) (stD : DimState)
    (hE : stE.inProgress = true) (hD : stD.inProgress = true) :
    startBackgroundFetch clientE bggIds games stE = stE ∧
    startBackgroundFetchDim clientD bggIds stD = stD := by
  constructor
  · simp [startBackgroundFetch, hE]
  · simp [startBackgroundFetchDim, hD]

/-- C8 witness: concrete in-progress states are returned unchanged. -/
theorem startBackgroundFetch_noop_when_running_witness :
    startBackgroundFetch (fun _ _ => Option.none) [1, 2] demoGames
        ⟨[], true, 0, 2, Method.none, Option.none⟩ =
      ⟨[], true, 0, 2, Method.none, Option.none⟩ ∧
    startBackgroundFetchDim (fun _ _ => Option.none) [1, 2]
        ⟨[], true, 0, 2, Option.none⟩ =
      ⟨[], true, 0, 2, Option.none⟩ :=
  startBackgroundFetch_noop_when_running _ _ [1, 2] demoGames _ _ rfl rfl

/-! ## C9 — status snapshot fields -/

/-- C9 counterexample: a status read of the dimension dataset returns a
snapshot with no `method` field, so not every status read carries all five
fields claimed. -/
theorem dim_status_has_no_method_field :
    lookupField (DimState.getFetchStatus ⟨[], false, 0, 0, Option.none⟩) "method" =
      Option.none := by
  decide

/-- C9 amended: every status read of the expansion dataset returns the five
fields inProgress, fetched, total, cached and method, recomputed from the
module state; a status read of the dimension dataset returns only the four
fields without method. -/
theorem getFetchStatus_fields (stE : ExpState) (stD : DimState) :
    lookupField stE.getFetchStatus "inProgress" = some (StatusVal.bool stE.inProgress) ∧
    lookupField stE.getFetchStatus "fetched" = some (StatusVal.nat stE.fetched) ∧
    lookupField stE.getFetchStatus "total" = some (StatusVal.nat stE.total) ∧
    lookupField stE.getFetchStatus "cached" = some (StatusVal.nat stE.cache.length) ∧
    lookupField stE.getFetchStatus "method" = some (StatusVal.method stE.usedMethod) ∧
    (stD.getFetchStatus.map Prod.fst = ["inProgress", "fetched", "total", "cached"]) ∧
    lookupField stD.getFetchStatus "method" = Option.none := by
  refine ⟨?_, ?_, ?_, ?_, ?_, ?_, ?_⟩ <;>
    simp [ExpState.getFetchStatus, DimState.getFetchStatus, lookupField]

/-! ## C1 — Unauthorized trial batch with an item list: heuristic fallback -/

/-- C1: when the run actually starts (idle state, non-empty delta), the trial
batch returns the 401 null and a non-empty item list was supplied, the
coordinator ends with method name-match, every requested identifier bound in
the cache to its heuristic links (empty list when the heuristic found none),
the store flushed to durable storage, the run closed, and fetched = total. -/
theorem expansion_unauthorized_fallback
    (client : Nat → List Nat → Option ExpBatch) (bggIds : List Nat)
    (games : List Game) (st0 : ExpState)
    (hIdle : st0.inProgress = false)
    (hGames : games ≠ [])
    (hNeeded : bggIds.filter (fun id => !(memberKey st0.loadCache.cache id)) ≠ [])
    (hAuth : client 0
      ((bggIds.filter (fun id => !(memberKey st0.loadCache.cache id))).take 15) =
      Option.none) :
    (startBackgroundFetch client bggIds games st0).usedMethod = Method.nameMatch ∧
    (∀ id ∈ bggIds,
      lookupKey (startBackgroundFetch client bggIds games st0).cache id =
        some ((lookupKey (analyzeByNamePrefix games) id).getD [])) ∧
    (∀ id ∈ bggIds,
      memberKey (startBackgroundFetch client bggIds games st0).cache id = true) ∧
    (startBackgroundFetch client bggIds games st0).disk =
      some (startBackgroundFetch client bggIds games st0).cache ∧
    (startBackgroundFetch client bggIds games st0).inProgress = false ∧
    (startBackgroundFetch client bggIds games st0).fetched =
      (startBackgroundFetch client bggIds games st0).total := by
  have hcache : (startBackgroundFetch client bggIds games st0).cache =
      bggIds.foldl
        (fun c id => setKey c id ((lookupKey (analyzeByNamePrefix games) id).getD []))
        st0.loadCache.cache := by
    simp [startBackgroundFetch, hIdle, hNeeded, hAuth, hGames, ExpState.saveCache]
  refine ⟨?_, ?_, ?_, ?_, ?_, ?_⟩
  · simp [startBackgroundFetch, hIdle, hNeeded, hAuth, hGames, ExpState.saveCache]
  · intro id hid
    rw [hcache]
    exact lookupKey_foldl_mem _ _ _ _ hid
  · intro id hid
    rw [memberKey, hcache, lookupKey_foldl_mem _ _ _ _ hid]
    rfl
  · simp [startBackgroundFetch, hIdle, hNeeded, hAuth, hGames, ExpState.saveCache]
  · simp [startBackgroundFetch, hIdle, hNeeded, hAuth, hGames, ExpState.saveCache]
  · simp [startBackgroundFetch, hIdle, hNeeded, hAuth, hGames, ExpState.saveCache]

/-- C1 witness: a three-item run against a stubbed always-401 client. -/
theorem expansion_unauthorized_fallback_witness :
    (startBackgroundFetch (fun _ _ => Option.none) [1, 2, 3] demoGames expFresh).usedMethod =
      Method.nameMatch ∧
    (∀ id ∈ [1, 2, 3],
      memberKey (startBackgroundFetch (fun _ _ => Option.none) [1, 2, 3] demoGames expFresh).cache
        id = true) :=
  ⟨(expansion_unauthorized_fallback (fun _ _ => Option.none) [1, 2, 3] demoGames expFresh
      rfl (by decide) (by decide) rfl).1,
   (expansion_unauthorized_fallback (fun _ _ => Option.none) [1, 2, 3] demoGames expFresh
      rfl (by decide) (by decide) rfl).2.2.1⟩

/-! ## C10 — Unauthorized trial batch without an item list -/

/-- C10: when the run starts from a fresh method marker with no supplied item
list and the trial batch returns the 401 null, the run ends with method still
none and the cache exactly as loaded, yet fetched is set equal to total, so a
subsequent status read reports a finished, not-in-progress run. -/
theorem expansion_unauthorized_no_items
    (client : Nat → List Nat → Option ExpBatch) (bggIds : List Nat)
    (st0 : ExpState)
    (hIdle : st0.inProgress = false)
    (hMethod : st0.usedMethod = Method.none)
    (hNeeded : bggIds.filter (fun id => !(memberKey st0.loadCache.cache id)) ≠ [])
    (hAuth : client 0
      ((bggIds.filter (fun id => !(memberKey st0.loadCache.cache id))).take 15) =
      Option.none) :
    (startBackgroundFetch client bggIds [] st0).usedMethod = Method.none ∧
    (startBackgroundFetch client bggIds [] st0).cache = st0.loadCache.cache ∧
    (startBackgroundFetch client bggIds [] st0).fetched =
      (startBackgroundFetch client bggIds [] st0).total ∧
    (startBackgroundFetch client bggIds [] st0).total =
      (bggIds.filter (fun id => !(memberKey st0.loadCache.cache id))).length ∧
    (startBackgroundFetch client bggIds [] st0).inProgress = false ∧
    lookupField (startBackgroundFetch client bggIds [] st0).getFetchStatus "inProgress" =
      some (StatusVal.bool false) ∧
    lookupField (startBackgroundFetch client bggIds [] st0).getFetchStatus "method" =
      some (StatusVal.method Method.none) := by
  refine ⟨?_, ?_, ?_, ?_, ?_, ?_, ?_⟩ <;>
    simp [startBackgroundFetch, hIdle, hNeeded, hAuth, hMethod, ExpState.saveCache,
          ExpState.getFetchStatus, lookupField, loadCache_usedMethod]

/-- C10 witness: a single-identifier run against a stubbed always-401 client
with no item list supplied. -/
theorem expansion_unauthorized_no_items_witness :
    (startBackgroundFetch (fun _ _ => Option.none) [1] [] expFresh).usedMethod =
      Method.none ∧
    (startBackgroundFetch (fun _ _ => Option.none) [1] [] expFresh).cache = [] ∧
    (startBackgroundFetch (fun _ _ => Option.none) [1] [] expFresh).fetched =
      (startBackgroundFetch (fun _ _ => Option.none) [1] [] expFresh).total :=
  ⟨(expansion_unauthorized_no_items (fun _ _ => Option.none) [1] expFresh
      rfl rfl (by decide) rfl).1,
   (expansion_unauthorized_no_items (fun _ _ => Option.none) [1] expFresh
      rfl rfl (by decide) rfl).2.1,
   (expansion_unauthorized_no_items (fun _ _ => Option.none) [1] expFresh
      rfl rfl (by decide) rfl).2.2.1⟩

/-! ## C7 — flush followed by load is the identity on the mapping -/

theorem charDigit_digitChar (d : Nat) (h : d < 10) :
    charDigit (digitChar d) = d := by
  interval_cases d <;> rfl

theorem map_charDigit_digitChar (l : List Nat) (h : ∀ d ∈ l, d < 10) :
    (l.map digitChar).map charDigit = l := by
  induction l with
  | nil => rfl
  | cons a t ih =>
      simp only [List.map_cons]
      rw [charDigit_digitChar a (h a (List.mem_cons_self a t)),
          ih (fun d hd => h d (List.mem_cons_of_mem a hd))]

theorem strToNat_natToStr (n : Nat) : strToNat (natToStr n) = n := by
  by_cases h : n = 0
  · subst h; rfl
  · rw [natToStr, if_neg h, strToNat]
    show Nat.ofDigits 10
        ((((Nat.digits 10 n).map digitChar).reverse.map charDigit).reverse) = n
    rw [List.map_reverse, List.reverse_reverse,
        map_charDigit_digitChar _ (fun d hd => Nat.digits_lt_base (by norm_num) hd),
        Nat.ofDigits_digits]

theorem decodeLink_encodeLink (l : ExpansionLink) :
    decodeLink (encodeLink l) = some l := by
  simp [decodeLink, encodeLink, Int.toNat_natCast, Int.natCast_nonneg]

theorem decodeLinks_encode (ls : List ExpansionLink) :
    decodeLinks (ls.map encodeLink) = some ls := by
  induction ls with
  | nil => rfl
  | cons a t ih => simp [decodeLinks, decodeLink_encodeLink, ih]

/-- C7: reloading what a flush wrote yields the identical mapping.  At the
module-state level, a load right after a save restores exactly the in-memory
store; at the document level, parsing the serialized document (stringified
identifier keys, link arrays) succeeds and returns the mapping that was
serialized. -/
theorem flush_load_roundtrip :
    (∀ st : ExpState, st.saveCache.loadCache.cache = st.cache) ∧
    (∀ c : ExpBatch, decodeCache (encodeCache c) = some c) := by
  constructor
  · intro st
    simp [ExpState.saveCache, ExpState.loadCache]
  · intro c
    suffices h : decodeEntries
        (c.map (fun kv => (natToStr kv.1, Json.arr (kv.2.map encodeLink)))) = some c by
      simpa [decodeCache, encodeCache] using h
    induction c with
    | nil => rfl
    | cons kv t ih =>
        obtain ⟨k, ls⟩ := kv
        simp [decodeEntries, decodeLinks_encode, strToNat_natToStr, ih]

/-! ## C6 — dimension records: source variant, rounding, volume -/

theorem pickDims_eq_firstValid (vs : List VersionDims) :
    pickDims vs = (firstValidVersion vs).map
      (fun v => ⟨round2 v.width, round2 v.length, round2 v.depth,
                 round2 (v.width * v.length * v.depth)⟩) := by
  induction vs with
  | nil => rfl
  | cons v rest ih =>
      by_cases h : 0 < v.width ∧ 0 < v.length ∧ 0 < v.depth
      · simp [pickDims, firstValidVersion, h]
      · simp [pickDims, firstValidVersion, h, ih]

theorem firstValidVersion_pos (vs : List VersionDims) (v : VersionDims)
    (h : firstValidVersion vs = some v) :
    0 < v.width ∧ 0 < v.length ∧ 0 < v.depth := by
  induction vs with
  | nil => cases h
  | cons w rest ih =>
      by_cases hw : 0 < w.width ∧ 0 < w.length ∧ 0 < w.depth
      · rw [firstValidVersion, if_pos hw] at h
        cases h
        exact hw
      · rw [firstValidVersion, if_neg hw] at h
        exact ih h

theorem round2_mul_100_intCast (q : ℚ) : ∃ z : ℤ, round2 q * 100 = (z : ℚ) := by
  refine ⟨round (q * 100), ?_⟩
  rw [round2]
  field_simp

/-- C6 counterexample: for one item with one version of measurements
1/8 × 1/8 × 1/8, the parser stores dimensions 0.13 × 0.13 × 0.13 with volume
0 (the product is rounded before storing, computed from the unrounded
measurements), and 0 is not the product of the stored dimensions. -/
theorem parseDimensions_volume_cex :
    parseDimensionsXml [(7, [⟨1/8, 1/8, 1/8⟩])] =
      [(7, ⟨13/100, 13/100, 13/100, 0⟩)] ∧
    ¬ ((0 : ℚ) = 13/100 * (13/100) * (13/100)) := by
  have h13 : round ((25 : ℚ)/2) = 13 := by
    rw [round_eq, Int.floor_eq_iff] <;> norm_num
  have h0 : round ((25 : ℚ)/128) = 0 := by
    rw [round_eq, Int.floor_eq_iff] <;> norm_num
  constructor
  · simp [parseDimensionsXml, pickDims, round2]
    norm_num [h13, h0]
  · norm_num

/-- C6 amended: every record the dimension parser produces comes from the
first version variant whose three measurements are all present and positive;
its four stored fields are the 2-decimal roundings (each stored field times
100 is an integer); and the stored volume is the rounding of the product of
the raw, unrounded measurements — which can differ from the product of the
stored rounded width, length and depth. -/
theorem parseDimensions_record_shape
    (items : List (Nat × List VersionDims)) (id : Nat) (d : BoxDimensions)
    (h : (id, d) ∈ parseDimensionsXml items) :
    ∃ vs v, (id, vs) ∈ items ∧ firstValidVersion vs = some v ∧
      0 < v.width ∧ 0 < v.length ∧ 0 < v.depth ∧
      d = ⟨round2 v.width, round2 v.length, round2 v.depth,
           round2 (v.width * v.length * v.depth)⟩ ∧
      (∃ z : ℤ, d.width * 100 = (z : ℚ)) ∧ (∃ z : ℤ, d.length * 100 = (z : ℚ)) ∧
      (∃ z : ℤ, d.depth * 100 = (z : ℚ)) ∧ (∃ z : ℤ, d.volume * 100 = (z : ℚ)) := by
  rw [parseDimensionsXml, List.mem_filterMap] at h
  obtain ⟨⟨id', vs⟩, hmem, hf⟩ := h
  rw [Option.map_eq_some'] at hf
  obtain ⟨a, ha, heq⟩ := hf
  obtain ⟨rfl, rfl⟩ : id' = id ∧ a = d := by
    constructor <;> [exact congrArg Prod.fst heq; exact congrArg Prod.snd heq]
  rw [pickDims_eq_firstValid, Option.map_eq_some'] at ha
  obtain ⟨v, hv, hvd⟩ := ha
  obtain ⟨hw, hl, hd⟩ := firstValidVersion_pos vs v hv
  refine ⟨vs, v, hmem, hv, hw, hl, hd, hvd.symm, ?_, ?_, ?_, ?_⟩ <;>
    rw [← hvd] <;> exact round2_mul_100_intCast _

/-- C6 amended witness: the record of the counterexample item instantiates
the shape theorem. -/
theorem parseDimensions_record_shape_witness :
    ∃ vs v, ((7 : Nat), vs) ∈ [((7 : Nat), [(⟨1/8, 1/8, 1/8⟩ : VersionDims)])] ∧
      firstValidVersion vs = some v ∧
      0 < v.width ∧ 0 < v.length ∧ 0 < v.depth ∧
      (⟨13/100, 13/100, 13/100, 0⟩ : BoxDimensions) =
        ⟨round2 v.width, round2 v.length, round2 v.depth,
         round2 (v.width * v.length * v.depth)⟩ ∧
      (∃ z : ℤ, (13/100 : ℚ) * 100 = (z : ℚ)) ∧ (∃ z : ℤ, (13/100 : ℚ) * 100 = (z : ℚ)) ∧
      (∃ z : ℤ, (13/100 : ℚ) * 100 = (z : ℚ)) ∧ (∃ z : ℤ, (0 : ℚ) * 100 = (z : ℚ)) :=
  parseDimensions_record_shape [(7, [⟨1/8, 1/8, 1/8⟩])] 7 ⟨13/100, 13/100, 13/100, 0⟩
    (by rw [parseDimensions_volume_cex.1]; exact List.mem_singleton.mpr rfl)

/-! ## C4 — Catalog Client retry ladder -/

theorem fetchWithRetry_three {α : Type} (s : Nat → Nat) (p : Nat → α) (e : α)
    (d : List Nat) :
    ((fetchWithRetry s p e 3 d).2 = d) ∧
    ((fetchWithRetry s p e 3 d).1 = Option.none → s 3 = 401) := by
  rw [fetchWithRetry]
  by_cases h200 : s 3 = 200
  · simp [h200]
  · by_cases h401 : s 3 = 401
    · simp [h200, h401]
    · simp [h200, h401]

theorem fetchWithRetry_two {α : Type} (s : Nat → Nat) (p : Nat → α) (e : α)
    (d : List Nat) :
    (∃ k, (fetchWithRetry s p e 2 d).2 = d ++ (backoffLadder.drop 2).take k) ∧
    ((fetchWithRetry s p e 2 d).1 = Option.none → ∃ m, m ≤ 3 ∧ s m = 401) := by
  rw [fetchWithRetry]
  by_cases h200 : s 2 = 200
  · exact ⟨⟨0, by simp [h200]⟩, by simp [h200]⟩
  · by_cases h401 : s 2 = 401
    · exact ⟨⟨0, by simp [h200, h401]⟩, fun _ => ⟨2, by omega, h401⟩⟩
    · by_cases h202 : s 2 = 202
      · have h3 := fetchWithRetry_three s p e (d ++ [backoffLadder.getD 2 0])
        refine ⟨⟨1, ?_⟩, ?_⟩
        · simp only [h200, h401, h202, if_false, if_true, true_and,
            Nat.lt_succ_self, dif_pos, and_true, if_neg, reduceIte]
          simpa [backoffLadder] using h3.1
        · intro hnone
          simp only [h200, h401, h202, reduceIte, and_true, true_and,
            show (2:Nat) < 3 by omega, dif_pos] at hnone
          exact ⟨3, by omega, h3.2 hnone⟩
      · exact ⟨⟨0, by simp [h200, h401, h202]⟩, by simp [h200, h401, h202]⟩

theorem fetchWithRetry_one {α : Type} (s : Nat → Nat) (p : Nat → α) (e : α)
    (d : List Nat) :
    (∃ k, (fetchWithRetry s p e 1 d).2 = d ++ (backoffLadder.drop 1).take k) ∧
    ((fetchWithRetry s p e 1 d).1 = Option.none → ∃ m, m ≤ 3 ∧ s m = 401) := by
  rw [fetchWithRetry]
  by_cases h200 : s 1 = 200
  · exact ⟨⟨0, by simp [h200]⟩, by simp [h200]⟩
  · by_cases h401 : s 1 = 401
    · exact ⟨⟨0, by simp [h200, h401]⟩, fun _ => ⟨1, by omega, h401⟩⟩
    · by_cases h202 : s 1 = 202
      · have h2 := fetchWithRetry_two s p e (d ++ [backoffLadder.getD 1 0])
        rw [if_neg h200, if_neg h401, dif_pos (And.intro h202 (by omega)),
            show (1 : Nat) + 1 = 2 from rfl]
        refine ⟨?_, h2.2⟩
        obtain ⟨k, hk⟩ := h2.1
        refine ⟨k + 1, ?_⟩
        rw [hk]
        simp [backoffLadder]
      · exact ⟨⟨0, by simp [h200, h401, h202]⟩, by simp [h200, h401, h202]⟩

theorem fetchWithRetry_zero {α : Type} (s : Nat → Nat) (p : Nat → α) (e : α)
    (d : List Nat) :
    (∃ k, (fetchWithRetry s p e 0 d).2 = d ++ backoffLadder.take k) ∧
    ((fetchWithRetry s p e 0 d).1 = Option.none → ∃ m, m ≤ 3 ∧ s m = 401) := by
  rw [fetchWithRetry]
  by_cases h200 : s 0 = 200
  · exact ⟨⟨0, by simp [h200]⟩, by simp [h200]⟩
  · by_cases h401 : s 0 = 401
    · exact ⟨⟨0, by simp [h200, h401]⟩, fun _ => ⟨0, by omega, h401⟩⟩
    · by_cases h202 : s 0 = 202
      · have h1 := fetchWithRetry_one s p e (d ++ [backoffLadder.getD 0 0])
        rw [if_neg h200, if_neg h401, dif_pos (And.intro h202 (by omega)),
            show (0 : Nat) + 1 = 1 from rfl]
        refine ⟨?_, h1.2⟩
        obtain ⟨k, hk⟩ := h1.1
        refine ⟨k + 1, ?_⟩
        rw [hk]
        simp [backoffLadder]
      · exact ⟨⟨0, by simp [h200, h401, h202]⟩, by simp [h200, h401, h202]⟩

theorem fetchWithRetry_all_retryable {α : Type} (s : Nat → Nat) (p : Nat → α)
    (e : α) (hs : ∀ n, s n = 202) :
    fetchWithRetry s p e 0 [] = (some e, backoffLadder) := by
  rw [fetchWithRetry, fetchWithRetry, fetchWithRetry, fetchWithRetry]
  simp [hs, backoffLadder]

theorem fetchWithRetry_immediate_other {α : Type} (s : Nat → Nat) (p : Nat → α)
    (e : α) (h200 : s 0 ≠ 200) (h401 : s 0 ≠ 401) (h202 : s 0 ≠ 202) :
    fetchWithRetry s p e 0 [] = (some e, []) := by
  rw [fetchWithRetry]
  simp [h200, h401, h202]

/-- C4: for any batch, both batched fetch functions retry 202 at most 3
times, sleeping the fixed ladder 2000, 4000, 8000 ms (the delays slept are
always a ladder head; all four are slept exactly when every attempt is
202, and exhaustion ends in an empty successful result); a null (hard-stop)
result arises only when some attempt saw 401; and a first response that is
neither 200 nor 401 nor 202 ends immediately in an empty successful result
with no sleep. -/
theorem catalogClient_retry_policy (s sd : Nat → Nat) (p : Nat → ExpBatch)
    (pd : Nat → DimBatch) :
    (∃ k, (fetchBatchExpansions s p).2 = backoffLadder.take k) ∧
    (fetchBatchExpansions s p).2.length ≤ 3 ∧
    ((fetchBatchExpansions s p).1 = Option.none → ∃ m, m ≤ 3 ∧ s m = 401) ∧
    ((∀ n, s n = 202) → fetchBatchExpansions s p = (some [], backoffLadder)) ∧
    (s 0 ≠ 200 → s 0 ≠ 401 → s 0 ≠ 202 → fetchBatchExpansions s p = (some [], [])) ∧
    (∃ k, (fetchBatchDimensions sd pd).2 = backoffLadder.take k) ∧
    ((fetchBatchDimensions sd pd).1 = Option.none → ∃ m, m ≤ 3 ∧ sd m = 401) ∧
    ((∀ n, sd n = 202) → fetchBatchDimensions sd pd = (some [], backoffLadder)) ∧
    (sd 0 ≠ 200 → sd 0 ≠ 401 → sd 0 ≠ 202 →
      fetchBatchDimensions sd pd = (some [], [])) := by
  have hzE := fetchWithRetry_zero s p ([] : ExpBatch) []
  have hzD := fetchWithRetry_zero sd pd ([] : DimBatch) []
  refine ⟨by simpa [fetchBatchExpansions] using hzE.1, ?_,
          by simpa [fetchBatchExpansions] using hzE.2,
          fun hs => fetchWithRetry_all_retryable s p [] hs,
          fun h1 h2 h3 => fetchWithRetry_immediate_other s p [] h1 h2 h3,
          by simpa [fetchBatchDimensions] using hzD.1,
          by simpa [fetchBatchDimensions] using hzD.2,
          fun hs => fetchWithRetry_all_retryable sd pd [] hs,
          fun h1 h2 h3 => fetchWithRetry_immediate_other sd pd [] h1 h2 h3⟩
  obtain ⟨k, hk⟩ := hzE.1
  have : (fetchBatchExpansions s p).2 = backoffLadder.take k := by
    simpa [fetchBatchExpansions] using hk
  rw [this]
  calc (backoffLadder.take k).length ≤ backoffLadder.length := by
        simpa using List.length_take_le k backoffLadder
    _ = 3 := rfl

/-- C4 witness: an always-202 stub exhausts exactly the three delays and
returns an empty successful result, for both datasets. -/
theorem catalogClient_retry_policy_witness :
    fetchBatchExpansions (fun _ => 202) (fun _ => []) = (some [], backoffLadder) ∧
    fetchBatchDimensions (fun _ => 202) (fun _ => []) = (some [], backoffLadder) :=
  ⟨(catalogClient_retry_policy (fun _ => 202) (fun _ => 202) (fun _ => [])
      (fun _ => [])).2.2.2.1 (fun _ => rfl),
   (catalogClient_retry_policy (fun _ => 202) (fun _ => 202) (fun _ => [])
      (fun _ => [])).2.2.2.2.2.2.2.1 (fun _ => rfl)⟩

/-! ## C3 — Queue Builder default-mode tiering -/

theorem contains_ids_eq (l : List Game) (hN : (l.map Game.bggId).Nodup)
    (m : List Game) (p : Game → Bool)
    (hm : ∀ x, x ∈ m ↔ x ∈ l ∧ p x = true)
    (g : Game) (hg : g ∈ l) :
    (m.map Game.bggId).contains g.bggId = p g := by
  by_cases hpg : p g = true
  · rw [hpg]
    have hgm : g ∈ m := (hm g).mpr ⟨hg, hpg⟩
    have : g.bggId ∈ m.map Game.bggId := List.mem_map_of_mem _ hgm
    exact List.elem_iff.mpr this
  · rw [Bool.not_eq_true] at hpg
    rw [hpg]
    by_contra hc
    rw [Bool.not_eq_false] at hc
    have hmem : g.bggId ∈ m.map Game.bggId := List.elem_iff.mp hc
    obtain ⟨g', hg', hid⟩ := List.mem_map.mp hmem
    obtain ⟨hgl', hpg'⟩ := (hm g').mp hg'
    have hgg : g' = g := List.inj_on_of_nodup_map hN hgl' hg hid
    rw [hgg, hpg] at hpg'
    cases hpg'

/-- C3: in default mode, over undecided items with distinct identifiers, the
Queue Builder drops every item acquired within the grace period entirely and
produces exactly Tier 1 (eligible standalone never-played, stably sorted by
acquisition date ascending) ++ Tier 2 (played but with no last-played date or
one before the three-year cutoff, stably sorted by rating ascending with
unrated as 0) ++ Tier 3 (the remaining eligible standalone items, stably
sorted by last-played ascending with missing date as epoch) ++ the eligible
expansions of owned base games sorted by name. -/
theorem buildDefaultQueue_tiers (oneYearAgo threeYearsAgo : Int)
    (expansionOf : ExpBatch) (collectionIds : List Nat) (undecided : List Game)
    (hN : (undecided.map Game.bggId).Nodup) :
    buildDefaultQueue oneYearAgo threeYearsAgo expansionOf collectionIds undecided =
      ((undecided.filter (tier1Spec oneYearAgo expansionOf collectionIds)).mergeSort
          (fun a b => dateKey a.dateAdded ≤ dateKey b.dateAdded)) ++
      ((undecided.filter
          (tier2Spec oneYearAgo threeYearsAgo expansionOf collectionIds)).mergeSort
          (fun a b => ratingKey a.userRating ≤ ratingKey b.userRating)) ++
      ((undecided.filter
          (tier3Spec oneYearAgo threeYearsAgo expansionOf collectionIds)).mergeSort
          (fun a b => dateKey a.lastPlayed ≤ dateKey b.lastPlayed)) ++
      ((undecided.filter (expSpec oneYearAgo expansionOf collectionIds)).mergeSort
          (fun a b => a.name ≤ b.name)) ∧
    (∀ g ∈ undecided, isRecent oneYearAgo g = true →
      g ∉ buildDefaultQueue oneYearAgo threeYearsAgo expansionOf collectionIds
            undecided) := by
  have h1 : undecided.filter
      (fun g => !(((undecided.filter (isRecent oneYearAgo)).map Game.bggId).contains g.bggId)) =
      undecided.filter (eligibleSpec oneYearAgo) := by
    apply List.filter_congr
    intro g hg
    rw [contains_ids_eq undecided hN _ (isRecent oneYearAgo)
        (fun x => List.mem_filter) g hg]
    rfl
  have h2 : (undecided.filter (eligibleSpec oneYearAgo)).filter
      (isExpansionInCollection expansionOf collectionIds) =
      undecided.filter (expSpec oneYearAgo expansionOf collectionIds) := by
    rw [List.filter_filter]
    apply List.filter_congr
    intro g hg
    simp [expSpec, Bool.and_comm]
  have hmExp : ∀ x, x ∈ (undecided.filter
      (expSpec oneYearAgo expansionOf collectionIds)).mergeSort
        (fun a b => a.name ≤ b.name) ↔
      x ∈ undecided ∧ expSpec oneYearAgo expansionOf collectionIds x = true := by
    intro x
    rw [List.mem_mergeSort, List.mem_filter]
  have h3 : (undecided.filter (eligibleSpec oneYearAgo)).filter
      (fun g => !((((undecided.filter
          (expSpec oneYearAgo expansionOf collectionIds)).mergeSort
          (fun a b => a.name ≤ b.name)).map Game.bggId).contains g.bggId)) =
      undecided.filter (fun g => eligibleSpec oneYearAgo g &&
        !(isExpansionInCollection expansionOf collectionIds g)) := by
    rw [List.filter_filter]
    apply List.filter_congr
    intro g hg
    rw [contains_ids_eq undecided hN _
        (expSpec oneYearAgo expansionOf collectionIds) hmExp g hg]
    cases he : eligibleSpec oneYearAgo g <;>
      cases hx : isExpansionInCollection expansionOf collectionIds g <;>
        simp [expSpec, he, hx]
  have h4 : (undecided.filter (fun g => eligibleSpec oneYearAgo g &&
        !(isExpansionInCollection expansionOf collectionIds g))).filter
      (fun g => g.playCount = 0) =
      undecided.filter (tier1Spec oneYearAgo expansionOf collectionIds) := by
    rw [List.filter_filter]
    apply List.filter_congr
    intro g hg
    cases he : eligibleSpec oneYearAgo g <;>
      cases hx : isExpansionInCollection expansionOf collectionIds g <;>
        simp [tier1Spec, he, hx]
  have hmT1 : ∀ x, x ∈ (undecided.filter
      (tier1Spec oneYearAgo expansionOf collectionIds)).mergeSort
        (fun a b => dateKey a.dateAdded ≤ dateKey b.dateAdded) ↔
      x ∈ undecided ∧ tier1Spec oneYearAgo expansionOf collectionIds x = true := by
    intro x
    rw [List.mem_mergeSort, List.mem_filter]
  have h5 : (undecided.filter (fun g => eligibleSpec oneYearAgo g &&
        !(isExpansionInCollection expansionOf collectionIds g))).filter
      (staleCheck threeYearsAgo (((undecided.filter
          (tier1Spec oneYearAgo expansionOf collectionIds)).mergeSort
          (fun a b => dateKey a.dateAdded ≤ dateKey b.dateAdded)).map Game.bggId)) =
      undecided.filter
        (tier2Spec oneYearAgo threeYearsAgo expansionOf collectionIds) := by
    rw [List.filter_filter]
    apply List.filter_congr
    intro g hg
    rw [staleCheck, contains_ids_eq undecided hN _
        (tier1Spec oneYearAgo expansionOf collectionIds) hmT1 g hg]
    cases he : eligibleSpec oneYearAgo g <;>
      cases hx : isExpansionInCollection expansionOf collectionIds g <;>
        by_cases hp : g.playCount = 0 <;>
          rcases hlp : g.lastPlayed with _ | t <;>
            simp [tier1Spec, tier2Spec, he, hx, hp, hlp]
  have hmT2 : ∀ x, x ∈ (undecided.filter
      (tier2Spec oneYearAgo threeYearsAgo expansionOf collectionIds)).mergeSort
        (fun a b => ratingKey a.userRating ≤ ratingKey b.userRating) ↔
      x ∈ undecided ∧
        tier2Spec oneYearAgo threeYearsAgo expansionOf collectionIds x = true := by
    intro x
    rw [List.mem_mergeSort, List.mem_filter]
  have h6 : (undecided.filter (fun g => eligibleSpec oneYearAgo g &&
        !(isExpansionInCollection expansionOf collectionIds g))).filter
      (fun g =>
        !((((undecided.filter
            (tier1Spec oneYearAgo expansionOf collectionIds)).mergeSort
            (fun a b => dateKey a.dateAdded ≤ dateKey b.dateAdded)).map
              Game.bggId).contains g.bggId) &&
        !((((undecided.filter
            (tier2Spec oneYearAgo threeYearsAgo expansionOf collectionIds)).mergeSort
            (fun a b => ratingKey a.userRating ≤ ratingKey b.userRating)).map
              Game.bggId).contains g.bggId)) =
      undecided.filter
        (tier3Spec oneYearAgo threeYearsAgo expansionOf collectionIds) := by
    rw [List.filter_filter]
    apply List.filter_congr
    intro g hg
    rw [contains_ids_eq undecided hN _
        (tier1Spec oneYearAgo expansionOf collectionIds) hmT1 g hg,
      contains_ids_eq undecided hN _
        (tier2Spec oneYearAgo threeYearsAgo expansionOf collectionIds) hmT2 g hg]
    cases he : eligibleSpec oneYearAgo g <;>
      cases hx : isExpansionInCollection expansionOf collectionIds g <;>
        by_cases hp : g.playCount = 0 <;>
          rcases hlp : g.lastPlayed with _ | t <;>
            simp [tier1Spec, tier2Spec, tier3Spec, he, hx, hp, hlp]
  have hmain : buildDefaultQueue oneYearAgo threeYearsAgo expansionOf collectionIds
      undecided =
      ((undecided.filter (tier1Spec oneYearAgo expansionOf collectionIds)).mergeSort
          (fun a b => dateKey a.dateAdded ≤ dateKey b.dateAdded)) ++
      ((undecided.filter
          (tier2Spec oneYearAgo threeYearsAgo expansionOf collectionIds)).mergeSort
          (fun a b => ratingKey a.userRating ≤ ratingKey b.userRating)) ++
      ((undecided.filter
          (tier3Spec oneYearAgo threeYearsAgo expansionOf collectionIds)).mergeSort
          (fun a b => dateKey a.lastPlayed ≤ dateKey b.lastPlayed)) ++
      ((undecided.filter (expSpec oneYearAgo expansionOf collectionIds)).mergeSort
          (fun a b => a.name ≤ b.name)) := by
    simp only [buildDefaultQueue]
    rw [h1, h2, h3, h4, h5, h6]
  refine ⟨hmain, ?_⟩
  intro g hg hrec hq
  rw [hmain] at hq
  simp only [List.mem_append, List.mem_mergeSort, List.mem_filter] at hq
  rcases hq with ((⟨-, h⟩ | ⟨-, h⟩) | ⟨-, h⟩) | ⟨-, h⟩ <;>
    simp [tier1Spec, tier2Spec, tier3Spec, expSpec, eligibleSpec, hrec] at h

/-- C3 witness: on a concrete four-item collection, the item acquired within
the grace period is excluded from the default queue entirely. -/
theorem buildDefaultQueue_tiers_witness :
    gNew ∉ buildDefaultQueue (-32000) (-96000) [] [] demoQueueInput :=
  (buildDefaultQueue_tiers (-32000) (-96000) [] [] demoQueueInput (by decide)).2
    gNew (by decide) (by decide)

end LessBoardGames
